import Mathlib

/-!
# Verification of the Clockwork date/time engine

A shallow embedding of the date/time reasoning core of the Clockwork
integration (`custom_components/clockwork/utils.py` and the offset state
machine of `custom_components/clockwork/binary_sensor.py`), together with
theorems settling the specification claims about it.

Python `date` / `datetime` values are modelled by explicit structures;
Python exceptions (`ValueError`, `IndexError`) are modelled with
`Except String`; `None` is modelled with `Option`.
-/

namespace Clockwork

/-! ## Calendar model (Python `datetime.date` semantics) -/

/-- Gregorian leap-year test, as in Python `calendar.isleap`. -/
def isLeap (y : Nat) : Bool :=
  y % 4 = 0 && (y % 100 ≠ 0 || y % 400 = 0)

/-- Length of a month, as Python `calendar.monthrange(y, m)[1]`
(months outside 1..12 are guarded by callers; the default arm is junk). -/
def daysInMonth (y m : Nat) : Nat :=
  match m with
  | 2 => if isLeap y then 29 else 28
  | 4 => 30
  | 6 => 30
  | 9 => 30
  | 11 => 30
  | _ => 31

/-- Days in year `y` strictly before month `m`. -/
def daysBeforeMonth (y m : Nat) : Nat :=
  (if isLeap y ∧ 2 < m then 1 else 0) +
  match m with
  | 1 => 0
  | 2 => 31
  | 3 => 59
  | 4 => 90
  | 5 => 120
  | 6 => 151
  | 7 => 181
  | 8 => 212
  | 9 => 243
  | 10 => 273
  | 11 => 304
  | _ => 334

/-- Number of leap years strictly before year `y` (for `y ≥ 1`). -/
def leapsBefore (y : Nat) : Nat :=
  (y - 1) / 4 - (y - 1) / 100 + (y - 1) / 400

/-- Proleptic Gregorian ordinal of (y, m, d), as Python
`date(y, m, d).toordinal()` (day 1 is 0001-01-01). -/
def toOrdinal (y m d : Nat) : Nat :=
  365 * (y - 1) + leapsBefore y + daysBeforeMonth y m + d

/-- A Python `datetime.date` value. -/
structure Date where
  year : Nat
  month : Nat
  day : Nat
  deriving DecidableEq, Repr

/-- Field-validity of a date, mirroring CPython `_check_date_fields`. -/
def isValidDate (d : Date) : Prop :=
  1 ≤ d.year ∧ d.year ≤ 9999 ∧ 1 ≤ d.month ∧ d.month ≤ 12 ∧
    1 ≤ d.day ∧ d.day ≤ daysInMonth d.year d.month

instance (d : Date) : Decidable (isValidDate d) := by
  unfold isValidDate; infer_instance

/-- The Python `date(y, m, d)` constructor: checks year, month, day in
order and raises `ValueError` on the first failure. -/
def mkDate (y m d : Nat) : Except String Date :=
  if 1 ≤ y ∧ y ≤ 9999 then
    if 1 ≤ m ∧ m ≤ 12 then
      if 1 ≤ d ∧ d ≤ daysInMonth y m then
        .ok ⟨y, m, d⟩
      else .error "day is out of range for month"
    else .error "month must be in 1..12"
  else .error "year is out of range"

/-- Python `date` comparison (lexicographic on (year, month, day)). -/
def dateLeP (a b : Date) : Prop :=
  a.year < b.year ∨ (a.year = b.year ∧
    (a.month < b.month ∨ (a.month = b.month ∧ a.day ≤ b.day)))

instance (a b : Date) : Decidable (dateLeP a b) := by
  unfold dateLeP; infer_instance

/-- Boolean form of `dateLeP`. -/
def dateLe (a b : Date) : Bool := decide (dateLeP a b)

/-- Python `(a - b).days` for dates. -/
def dateDiff (a b : Date) : Int :=
  (toOrdinal a.year a.month a.day : Int) - (toOrdinal b.year b.month b.day : Int)

/-- `date(y, m, 1).weekday()`: weekday of the first day of a month
(Monday = 0, as in Python). -/
def firstWeekday (y m : Nat) : Nat :=
  (toOrdinal y m 1 + 6) % 7

/-! ## `calendar.monthcalendar` model

`calendar.monthcalendar(y, m)` with the default `firstweekday = 0`
returns a list of 7-element weeks starting on Monday, padded with `0`
for slots outside the month, so column `c` of each week holds weekday
`c` (Monday = 0). -/

/-- Number of week rows in the month matrix. -/
def numWeeks (fw len : Nat) : Nat := (fw + len + 6) / 7

/-- The week matrix as a function of the first weekday `fw` of the
month and the month length `len`. -/
def monthcalendarAux (fw len : Nat) : List (List Nat) :=
  (List.range (numWeeks fw len)).map (fun w =>
    (List.range 7).map (fun c =>
      let j := w * 7 + c
      if fw ≤ j ∧ j < fw + len then j - fw + 1 else 0))

/-- `calendar.monthcalendar(y, m)`; raises for months outside 1..12
(`IllegalMonthError`) and for years Python `date` cannot represent. -/
def monthcalendar (y m : Nat) : Except String (List (List Nat)) :=
  if 1 ≤ m ∧ m ≤ 12 then
    if 1 ≤ y ∧ y ≤ 9999 then
      .ok (monthcalendarAux (firstWeekday y m) (daysInMonth y m))
    else .error "year is out of range"
  else .error "bad month number; must be 1-12"

/-! ## Holiday resolution (`utils.py`: `get_holiday_date` and helpers)

A holiday rule record.  The Python code reads the fields of a holiday
dict with `.get`; well-formed records carry the fields their `type`
needs, which is what the structure models. -/

structure Holiday where
  key : String
  htype : String
  month : Nat
  day : Nat
  occurrence : Nat
  weekday : Nat
  deriving Repr

/-- The loop body of `_get_nth_weekday`: walk the week rows, counting
rows whose `weekday` column is a real day, and return that day once the
count reaches `occurrence`.  `week[weekday]` raises `IndexError` when
the column index is out of range. -/
def nthWeekdayFind (weeks : List (List Nat)) (weekday occurrence count : Nat) :
    Except String (Option Nat) :=
  match weeks with
  | [] => .ok none
  | week :: rest =>
    match week.get? weekday with
    | none => .error "list index out of range"
    | some d =>
      if d = 0 then nthWeekdayFind rest weekday occurrence count
      else if count + 1 = occurrence then .ok (some d)
      else nthWeekdayFind rest weekday occurrence (count + 1)

/-- `utils._get_nth_weekday(year, month, occurrence, weekday)`
(exceptions from `monthcalendar` and the week loop propagate). -/
def _get_nth_weekday (year month occurrence weekday : Nat) :
    Except String (Option Date) :=
  match monthcalendar year month with
  | .error e => .error e
  | .ok cal =>
    match nthWeekdayFind cal weekday occurrence 0 with
    | .error e => .error e
    | .ok (some d) => (mkDate year month d).map some
    | .ok none => .ok none

/-- The loop body of `_get_last_weekday`: walk the reversed week rows
and return the first real day in the `weekday` column. -/
def lastWeekdayFind (weeks : List (List Nat)) (weekday : Nat) :
    Except String (Option Nat) :=
  match weeks with
  | [] => .ok none
  | week :: rest =>
    match week.get? weekday with
    | none => .error "list index out of range"
    | some d =>
      if d ≠ 0 then .ok (some d)
      else lastWeekdayFind rest weekday

/-- `utils._get_last_weekday(year, month, weekday)`
(exceptions from `monthcalendar` and the week loop propagate). -/
def _get_last_weekday (year month weekday : Nat) :
    Except String (Option Date) :=
  match monthcalendar year month with
  | .error e => .error e
  | .ok cal =>
    match lastWeekdayFind cal.reverse weekday with
    | .error e => .error e
    | .ok (some d) => (mkDate year month d).map some
    | .ok none => .ok none

/-- `utils.get_holiday_date(hass, target_year, holiday_key, ...)`,
with the merged holiday table passed explicitly.  The loop returns on
the first holiday whose key matches and whose type is recognized; a
matching record with an unrecognized type falls through to the next
record, and a `fixed` record builds the date with the raising `date`
constructor. -/
def get_holiday_date (holidays : List Holiday) (target_year : Nat)
    (holiday_key : String) : Except String (Option Date) :=
  match holidays with
  | [] => .ok none
  | h :: rest =>
    if h.key = holiday_key then
      if h.htype = "fixed" then (mkDate target_year h.month h.day).map some
      else if h.htype = "nth_weekday" then
        _get_nth_weekday target_year h.month h.occurrence h.weekday
      else if h.htype = "last_weekday" then
        _get_last_weekday target_year h.month h.weekday
      else get_holiday_date rest target_year holiday_key
    else get_holiday_date rest target_year holiday_key

/-- `utils.get_days_to_holiday(hass, today, holiday_key, ...)`
(exceptions from resolution propagate; a `None` this year yields the
`-1` sentinel; a passed date retries next year, keeping the negative
delta when next year resolves to `None`). -/
def get_days_to_holiday (holidays : List Holiday) (today : Date)
    (holiday_key : String) : Except String Int :=
  match get_holiday_date holidays today.year holiday_key with
  | .error e => .error e
  | .ok none => .ok (-1)
  | .ok (some holiday_date) =>
    if dateDiff holiday_date today < 0 then
      match get_holiday_date holidays (today.year + 1) holiday_key with
      | .error e => .error e
      | .ok (some next_year_holiday) => .ok (dateDiff next_year_holiday today)
      | .ok none => .ok (dateDiff holiday_date today)
    else
      .ok (dateDiff holiday_date today)

/-! ## Season membership (`utils.is_in_season`) -/

/-- A season rule record for one hemisphere. -/
structure Season where
  key : String
  start_month : Nat
  start_day : Nat
  end_month : Nat
  end_day : Nat
  deriving Repr

/-- `calendar.monthrange(y, m)[1]`: raises for months outside 1..12. -/
def monthrange (y m : Nat) : Except String Nat :=
  if 1 ≤ m ∧ m ≤ 12 then .ok (daysInMonth y m)
  else .error "bad month number; must be 1-12"

/-- `utils.is_in_season(hass, check_date, season_key, hemisphere)`, with
the season table of the selected hemisphere passed explicitly.  The
first record with a matching key decides; `start_date` is built with the
raising constructor, `end_date` falls back to Feb 28 (February) or the
`monthrange` month length (other months) when invalid. -/
def is_in_season (seasons : List Season) (check_date : Date)
    (season_key : String) : Except String Bool :=
  match seasons with
  | [] => .ok false
  | season :: rest =>
    if season.key = season_key then do
      let start_date ← mkDate check_date.year season.start_month season.start_day
      let end_date ←
        match mkDate check_date.year season.end_month season.end_day with
        | .ok e => pure e
        | .error _ =>
          if season.end_month = 2 then
            pure (⟨check_date.year, 2, 28⟩ : Date)
          else do
            let last_day ← monthrange check_date.year season.end_month
            pure (⟨check_date.year, season.end_month, last_day⟩ : Date)
      if season.end_month < season.start_month then
        pure (dateLe start_date check_date || dateLe check_date end_date)
      else
        pure (dateLe start_date check_date && dateLe check_date end_date)
    else is_in_season rest check_date season_key

/-! ## Offset string parsing (`utils.parse_offset`,
`utils.validate_offset_string`) -/

/-- Python whitespace characters recognized by `str.split()`. -/
def isPySpace (c : Char) : Bool :=
  c.toNat = 32 || c.toNat = 9 || c.toNat = 10 ||
  c.toNat = 13 || c.toNat = 11 || c.toNat = 12

/-- Accumulator loop for `str.split()` with no separator: split on runs
of whitespace, dropping empty tokens. -/
def splitWsAux : List Char → List Char → List (List Char)
  | [], acc => if acc.isEmpty then [] else [acc.reverse]
  | c :: rest, acc =>
    if isPySpace c then
      if acc.isEmpty then splitWsAux rest []
      else acc.reverse :: splitWsAux rest []
    else splitWsAux rest (c :: acc)

/-- Python `s.split()`. -/
def pySplit (s : List Char) : List (List Char) := splitWsAux s []

/-- Python `s.strip()`. -/
def pyStrip (s : List Char) : List Char :=
  ((s.dropWhile isPySpace).reverse.dropWhile isPySpace).reverse

/-- Value of a nonempty list of decimal digits. -/
def digitsVal (ds : List Char) : Nat :=
  ds.foldl (fun a c => a * 10 + (c.toNat - 48)) 0

/-- Python `int(token)` on a whitespace-free token: an optional sign
followed by decimal digits; anything else raises `ValueError`
(modelled as `none`). -/
def parseIntPy (s : List Char) : Option Int :=
  match s with
  | [] => none
  | c :: rest =>
    if c = '-' then
      if rest ≠ [] ∧ rest.all Char.isDigit then some (-(digitsVal rest : Int)) else none
    else if c = '+' then
      if rest ≠ [] ∧ rest.all Char.isDigit then some (digitsVal rest : Int) else none
    else
      if s.all Char.isDigit then some (digitsVal s : Int) else none

/-- Python `s.lower().rstrip('s')` on a token. -/
def normalizeUnit (s : List Char) : List Char :=
  ((s.map Char.toLower).reverse.dropWhile (· = 's')).reverse

/-- The `conversions` table of `parse_offset`. -/
def unitMult (u : List Char) : Option Int :=
  if u = "second".toList then some 1
  else if u = "minute".toList then some 60
  else if u = "hour".toList then some 3600
  else if u = "day".toList then some 86400
  else if u = "week".toList then some 604800
  else none

/-- `utils.parse_offset(offset_str)`: lenient parse to seconds,
returning 0 on any failure (empty input, fewer than two tokens,
non-integer value, unknown unit).  Tokens beyond the second are read
past without complaint. -/
def parse_offset (offset_str : String) : Int :=
  if offset_str = "" then 0
  else
    if (pySplit (pyStrip offset_str.toList)).length < 2 then 0
    else
      match parseIntPy ((pySplit (pyStrip offset_str.toList)).getD 0 []) with
      | none => 0
      | some value =>
        match unitMult (normalizeUnit ((pySplit (pyStrip offset_str.toList)).getD 1 [])) with
        | none => 0
        | some mult => value * mult

/-- The `valid_units` list of `validate_offset_string`. -/
def validUnits : List (List Char) :=
  ["second".toList, "minute".toList, "hour".toList, "day".toList, "week".toList]

/-- `utils.validate_offset_string(offset_str)`: the strict
configuration-time validator, returning `(is_valid, error_message)`. -/
def validate_offset_string (offset_str : String) : Bool × Option String :=
  if offset_str = "" then (false, some "Offset is required")
  else
    if (pyStrip offset_str.toList).isEmpty then (false, some "Offset cannot be empty")
    else
      if (pySplit (pyStrip offset_str.toList)).length < 2 then
        (false, some "Format must be like value unit")
      else if 2 < (pySplit (pyStrip offset_str.toList)).length then
        (false, some "Offset must contain only value and unit, not extra words")
      else
        match parseIntPy ((pySplit (pyStrip offset_str.toList)).getD 0 []) with
        | none => (false, some "Offset value must be an integer")
        | some value =>
          if value = 0 then
            (false, some "Offset value must be non-zero (greater or less than 0)")
          else
            if validUnits.contains
                (normalizeUnit ((pySplit (pyStrip offset_str.toList)).getD 1 [])) then
              (true, none)
            else (false, some "Invalid time unit")

/-! ## Datetime range membership (`utils.is_datetime_between`) -/

/-- A Python `datetime` value: a calendar date plus a time of day
(`.time()`), the latter measured in microseconds since midnight, which
compares exactly as Python `time` objects do. -/
structure DateTime where
  date : Date
  timeOfDay : Nat
  deriving DecidableEq, Repr

/-- Python `datetime` comparison: lexicographic on (date, time). -/
def dtLeP (a b : DateTime) : Prop :=
  (dateLeP a.date b.date ∧ a.date ≠ b.date) ∨
    (a.date = b.date ∧ a.timeOfDay ≤ b.timeOfDay)

instance (a b : DateTime) : Decidable (dtLeP a b) := by
  unfold dtLeP; infer_instance

/-- Boolean form of `dtLeP`. -/
def dtLe (a b : DateTime) : Bool := decide (dtLeP a b)

/-- The comparison body of `is_datetime_between`, reached when all three
arguments are present. -/
def is_datetime_between_core (check_datetime start_datetime end_datetime : DateTime) :
    Bool :=
  if start_datetime.date = end_datetime.date then
    if check_datetime.date = start_datetime.date then
      dtLe start_datetime check_datetime && dtLe check_datetime end_datetime
    else
      if start_datetime.timeOfDay ≤ end_datetime.timeOfDay then
        decide (start_datetime.timeOfDay ≤ check_datetime.timeOfDay ∧
          check_datetime.timeOfDay ≤ end_datetime.timeOfDay)
      else
        decide (check_datetime.timeOfDay ≥ start_datetime.timeOfDay ∨
          check_datetime.timeOfDay ≤ end_datetime.timeOfDay)
  else
    dtLe start_datetime check_datetime && dtLe check_datetime end_datetime

/-- `utils.is_datetime_between(check, start, end)`: raises `ValueError`
when any argument is `None`, otherwise compares. -/
def is_datetime_between (check_datetime start_datetime end_datetime : Option DateTime) :
    Except String Bool :=
  match check_datetime, start_datetime, end_datetime with
  | some c, some s, some e => .ok (is_datetime_between_core c s e)
  | _, _, _ => .error "All datetime arguments must be provided (not None)"

/-! ## The offset trigger state machine
(`binary_sensor.ClockworkOffsetBinarySensor`)

Instants (`dt_util.utcnow()`) are modelled as integer second counts;
`timedelta(seconds=k)` is addition of `k`. -/

/-- The configuration of one offset binary sensor. -/
structure OffsetConfig where
  offset_seconds : Int
  pulse_duration_seconds : Int
  mode : String
  trigger_on : String
  deriving Repr

/-- The mutable state of one offset binary sensor. -/
structure OffsetState where
  source_is_on : Bool
  trigger_time : Option Int
  is_on : Bool
  deriving DecidableEq, Repr

/-- `ClockworkOffsetBinarySensor._update_state`: recompute `is_on`
(and, in pulse mode, possibly clear `trigger_time`) from the mode,
the trigger time and the current instant. -/
def _update_state (cfg : OffsetConfig) (now : Int) (st : OffsetState) : OffsetState :=
  if cfg.mode = "pulse" then
    match st.trigger_time with
    | some t =>
      let pulse_end_time := t + cfg.pulse_duration_seconds
      { st with
        is_on := decide (t ≤ now ∧ now < pulse_end_time),
        trigger_time := if pulse_end_time ≤ now then none else some t }
    | none => { st with is_on := false }
  else if cfg.mode = "duration" then
    match st.trigger_time with
    | some t =>
      if t ≤ now then
        { st with is_on :=
            if cfg.trigger_on = "on" ∧ st.source_is_on then true
            else if cfg.trigger_on = "off" ∧ ¬st.source_is_on then true
            else if cfg.trigger_on = "both" then true
            else false }
      else { st with is_on := false }
    | none => { st with is_on := false }
  else
    match st.trigger_time with
    | some t => { st with is_on := decide (t ≤ now) }
    | none => { st with is_on := false }

/-- The `state_change_listener` closure of
`ClockworkOffsetBinarySensor.async_added_to_hass`: react to the source
entity changing to `new_state` at instant `now` (the instant is also
used for the re-evaluation the listener performs). -/
def state_change_listener (cfg : OffsetConfig) (now : Int)
    (new_state : Option String) (st : OffsetState) : OffsetState :=
  match new_state with
  | some s =>
    if s = "on" then
      let st := { st with source_is_on := true }
      let st :=
        if cfg.trigger_on = "on" ∨ cfg.trigger_on = "both" then
          { st with trigger_time := some (now + cfg.offset_seconds) }
        else st
      _update_state cfg now st
    else if s = "off" then
      let st := { st with source_is_on := false }
      if cfg.trigger_on = "off" ∨ cfg.trigger_on = "both" then
        _update_state cfg now
          { st with trigger_time := some (now + cfg.offset_seconds) }
      else if cfg.mode = "duration" then
        { st with trigger_time := none, is_on := false }
      else if cfg.mode = "pulse" then
        { st with trigger_time := none, is_on := false }
      else st
    else st
  | none => st

/-! ## The between/outside dates sensors
(`binary_sensor.ClockworkBetweenDatesSensor._update_state`,
`binary_sensor.ClockworkOutsideDatesSensor._update_state`)

Modelled at the point where the two entity states have been fetched and
parsed: the sensors receive the current instant and the two parsed
datetimes (`None` when an entity is missing or unparsable). -/

/-- State computation of the between-dates sensor. -/
def betweenDates_update (current_datetime : DateTime)
    (start_datetime end_datetime : Option DateTime) : Bool :=
  match start_datetime, end_datetime with
  | some s, some e => is_datetime_between_core current_datetime s e
  | _, _ => false

/-- State computation of the outside-dates sensor. -/
def outsideDates_update (current_datetime : DateTime)
    (start_datetime end_datetime : Option DateTime) : Bool :=
  match start_datetime, end_datetime with
  | some s, some e => !(is_datetime_between_core current_datetime s e)
  | _, _ => false

/-! ## Comparison definitions written from the specification's words

These are used to diff the specification against the code where the two
disagree; they are never part of the model of the source itself. -/

/-- The season end date as the specification describes it: an invalid
(end_month, end_day) pair is clamped to the last valid day of
`end_month` for that year — including February of leap years. -/
def seasonEndDateClaimed (y : Nat) (s : Season) : Date :=
  if 1 ≤ s.end_day ∧ s.end_day ≤ daysInMonth y s.end_month then
    ⟨y, s.end_month, s.end_day⟩
  else
    ⟨y, s.end_month, daysInMonth y s.end_month⟩

/-- The season end date as the code computes it: on an invalid
(end_month, end_day) pair, February is clamped to the 28th
unconditionally, other months to their month length. -/
def seasonEndDate (y : Nat) (s : Season) : Date :=
  match mkDate y s.end_month s.end_day with
  | .ok e => e
  | .error _ =>
    if s.end_month = 2 then ⟨y, 2, 28⟩
    else ⟨y, s.end_month, daysInMonth y s.end_month⟩

/-- The first season record matching a key, as the loop in
`is_in_season` selects it. -/
def findSeason : List Season → String → Option Season
  | [], _ => none
  | s :: rest, key => if s.key = key then some s else findSeason rest key

/-- Decidable success of the last-weekday scan over the week matrix of
a month with first weekday `fw` and length `len`: the scan finds a day
and the day is a real day of the month. -/
def lastOk (fw len wd : Nat) : Bool :=
  match lastWeekdayFind (monthcalendarAux fw len).reverse wd with
  | .ok (some d) => decide (1 ≤ d ∧ d ≤ len)
  | _ => false

/-! ## Claim theorems -/

/-- C1 (counterexample): a Fixed holiday rule with day 30 in February
makes `get_holiday_date` raise `ValueError` — it does not return
`None` as the claim states. -/
theorem get_holiday_date_fixed_feb30_raises :
    get_holiday_date [⟨"x", "fixed", 2, 30, 0, 0⟩] 2025 "x" =
      .error "day is out of range for month" := by
  rfl

/-- C1 (amended): for every year in range and every Fixed holiday rule
whose day is out of range for its (valid) month, `get_holiday_date`
raises `ValueError` from the `date` constructor; it neither returns
`None` nor silently corrects the date. -/
theorem get_holiday_date_fixed_invalid_day_raises
    (h : Holiday) (rest : List Holiday) (year : Nat) (key : String)
    (hkey : h.key = key) (htype : h.htype = "fixed")
    (hy : 1 ≤ year ∧ year ≤ 9999) (hm : 1 ≤ h.month ∧ h.month ≤ 12)
    (hday : ¬(1 ≤ h.day ∧ h.day ≤ daysInMonth year h.month)) :
    get_holiday_date (h :: rest) year key =
      .error "day is out of range for month" := by
  unfold get_holiday_date mkDate
  simp [hkey, htype, hy, hm, hday, Except.map]

/-- Witness for the amended C1 theorem at a concrete rule. -/
theorem get_holiday_date_fixed_invalid_day_raises_witness :
    get_holiday_date [⟨"nye", "fixed", 4, 31, 0, 0⟩] 2026 "nye" =
      .error "day is out of range for month" :=
  get_holiday_date_fixed_invalid_day_raises ⟨"nye", "fixed", 4, 31, 0, 0⟩ [] 2026 "nye"
    rfl rfl (by decide) (by decide) (by decide)

/-- C4: when start and end share a calendar date and the tested point
does not, `is_datetime_between` compares time-of-day components only
(with the wrapping disjunction for overnight windows); when start and
end fall on different dates, or the point shares start's date, it
compares full instants. -/
theorem is_datetime_between_core_cases (p s e : DateTime) :
    ((s.date = e.date ∧ p.date ≠ s.date) →
      is_datetime_between_core p s e =
        (if s.timeOfDay ≤ e.timeOfDay then
          decide (s.timeOfDay ≤ p.timeOfDay ∧ p.timeOfDay ≤ e.timeOfDay)
        else
          decide (p.timeOfDay ≥ s.timeOfDay ∨ p.timeOfDay ≤ e.timeOfDay))) ∧
    ((s.date ≠ e.date ∨ p.date = s.date) →
      is_datetime_between_core p s e = (dtLe s p && dtLe p e)) := by
  constructor
  · rintro ⟨hse, hps⟩
    unfold is_datetime_between_core
    rw [if_pos hse, if_neg hps]
  · intro h
    unfold is_datetime_between_core
    rcases h with h | h
    · rw [if_neg h]
    · by_cases hse : s.date = e.date
      · rw [if_pos hse, if_pos h]
      · rw [if_neg hse]

/-- Witness for C4: the recurring-daily branch at a concrete triple. -/
theorem is_datetime_between_core_cases_witness :
    is_datetime_between_core ⟨⟨2025, 1, 2⟩, 100⟩ ⟨⟨2025, 1, 1⟩, 50⟩
      ⟨⟨2025, 1, 1⟩, 200⟩ = true := by
  have h := (is_datetime_between_core_cases ⟨⟨2025, 1, 2⟩, 100⟩ ⟨⟨2025, 1, 1⟩, 50⟩
    ⟨⟨2025, 1, 1⟩, 200⟩).1 ⟨rfl, by decide⟩
  rw [h]; decide

/-- C5 (counterexample): in Pulse mode with `trigger_on = "off"`, a
source change to `"on"` is a non-matching change, yet it does not
cancel the pulse: the trigger time survives and the output stays on. -/
theorem pulse_nonmatching_on_change_keeps_pulse :
    (state_change_listener ⟨0, 60, "pulse", "off"⟩ 110 (some "on")
        ⟨false, some 100, true⟩).trigger_time = some 100 ∧
    (state_change_listener ⟨0, 60, "pulse", "off"⟩ 110 (some "on")
        ⟨false, some 100, true⟩).is_on = true := by
  constructor <;> rfl

/-- C5 (amended): in Pulse mode, a source change to Off when
`trigger_on` is On cancels the pending or active pulse (trigger time
cleared, output forced false); a change to On when `trigger_on` is Off
does not cancel — it leaves an unexpired trigger time in place and
merely re-evaluates the pulse window. -/
theorem pulse_cancel_only_on_off_change
    (cfg : OffsetConfig) (st : OffsetState) (now t : Int)
    (hmode : cfg.mode = "pulse") :
    ((cfg.trigger_on = "on" →
      (state_change_listener cfg now (some "off") st).trigger_time = none ∧
      (state_change_listener cfg now (some "off") st).is_on = false) ∧
     (cfg.trigger_on = "off" → st.trigger_time = some t →
      now < t + cfg.pulse_duration_seconds →
      (state_change_listener cfg now (some "on") st).trigger_time = some t ∧
      (state_change_listener cfg now (some "on") st).is_on =
        decide (t ≤ now ∧ now < t + cfg.pulse_duration_seconds))) := by
  constructor
  · intro hon
    unfold state_change_listener
    simp [hon, hmode]
  · intro hoff htrig hlt
    unfold state_change_listener _update_state
    simp [hoff, hmode, htrig, not_le.mpr hlt]

/-- Witness for the amended C5 theorem at concrete states. -/
theorem pulse_cancel_only_on_off_change_witness :
    (state_change_listener ⟨0, 60, "pulse", "on"⟩ 110 (some "off")
        ⟨true, some 100, true⟩).trigger_time = none ∧
    (state_change_listener ⟨0, 60, "pulse", "on"⟩ 110 (some "off")
        ⟨true, some 100, true⟩).is_on = false :=
  (pulse_cancel_only_on_off_change ⟨0, 60, "pulse", "on"⟩
    ⟨true, some 100, true⟩ 110 100 rfl).1 rfl

/-- C7: in Pulse mode with the trigger armed at `t` and duration `d`,
an evaluation at `now` turns the output on exactly for
`t ≤ now < t + d`; at or after `t + d` the trigger time is cleared,
after which every later evaluation keeps the output off, and before
`t + d` the trigger time is retained. -/
theorem pulse_update_state_spec
    (cfg : OffsetConfig) (st : OffsetState) (t now : Int)
    (hmode : cfg.mode = "pulse") (htrig : st.trigger_time = some t) :
    ((_update_state cfg now st).is_on =
      decide (t ≤ now ∧ now < t + cfg.pulse_duration_seconds)) ∧
    (t + cfg.pulse_duration_seconds ≤ now →
      (_update_state cfg now st).trigger_time = none ∧
      ∀ now2, (_update_state cfg now2 (_update_state cfg now st)).is_on = false) ∧
    (now < t + cfg.pulse_duration_seconds →
      (_update_state cfg now st).trigger_time = some t) := by
  refine ⟨?_, ?_, ?_⟩
  · unfold _update_state; simp [hmode, htrig]
  · intro hexp
    constructor
    · unfold _update_state; simp [hmode, htrig, hexp]
    · intro now2
      unfold _update_state
      simp [hmode, htrig, hexp]
  · intro hlt
    unfold _update_state
    simp [hmode, htrig, not_le.mpr hlt]

/-- Witness for C7 at a concrete armed pulse. -/
theorem pulse_update_state_spec_witness :
    (_update_state ⟨0, 60, "pulse", "on"⟩ 130 ⟨true, some 100, false⟩).is_on =
      decide ((100 : Int) ≤ 130 ∧ (130 : Int) < 100 + 60) :=
  (pulse_update_state_spec ⟨0, 60, "pulse", "on"⟩ ⟨true, some 100, false⟩
    100 130 rfl rfl).1

/-- C8: for every triple of present datetimes, the outside-dates sensor
computes the exact boolean negation of the between-dates sensor. -/
theorem outside_eq_not_between (now s e : DateTime) :
    outsideDates_update now (some s) (some e) =
      !(betweenDates_update now (some s) (some e)) := by
  rfl

/-- C9: `is_datetime_between` raises `ValueError` whenever any of its
three arguments is `None`; it never silently returns false for a
missing argument. -/
theorem is_datetime_between_none_raises
    (c s e : Option DateTime) (h : c = none ∨ s = none ∨ e = none) :
    is_datetime_between c s e =
      .error "All datetime arguments must be provided (not None)" := by
  unfold is_datetime_between
  rcases h with h | h | h <;> subst h <;>
    first
    | rfl
    | (cases c <;> [rfl; (cases e <;> rfl)])
    | (cases c <;> [rfl; (cases s <;> rfl)])

/-- Witness for C9 with a missing start argument. -/
theorem is_datetime_between_none_raises_witness :
    is_datetime_between (some ⟨⟨2025, 6, 1⟩, 0⟩) none (some ⟨⟨2025, 6, 2⟩, 0⟩) =
      .error "All datetime arguments must be provided (not None)" :=
  is_datetime_between_none_raises (some ⟨⟨2025, 6, 1⟩, 0⟩) none
    (some ⟨⟨2025, 6, 2⟩, 0⟩) (Or.inr (Or.inl rfl))

/-- C3 (counterexample): `parse_offset` accepts a three-token string
(the repository's own tests pin this: only the first unit is read),
returning 3600 rather than the zero value the claim requires, while
`validate_offset_string` rejects the same string — so the two do not
agree on validity. -/
theorem parse_offset_extra_tokens_cex :
    parse_offset "1 hour 30 minutes" = 3600 ∧
    (validate_offset_string "1 hour 30 minutes").1 = false := by
  exact ⟨rfl, rfl⟩

/-- Every unit in the validator's `valid_units` list has a multiplier
in the parser's `conversions` table. -/
theorem unitMult_of_valid (u : List Char) (h : validUnits.contains u = true) :
    ∃ m, unitMult u = some m ∧ 1 ≤ m := by
  unfold unitMult
  by_cases e1 : u = "second".toList
  · rw [if_pos e1]; exact ⟨1, rfl, by decide⟩
  rw [if_neg e1]
  by_cases e2 : u = "minute".toList
  · rw [if_pos e2]; exact ⟨60, rfl, by decide⟩
  rw [if_neg e2]
  by_cases e3 : u = "hour".toList
  · rw [if_pos e3]; exact ⟨3600, rfl, by decide⟩
  rw [if_neg e3]
  by_cases e4 : u = "day".toList
  · rw [if_pos e4]; exact ⟨86400, rfl, by decide⟩
  rw [if_neg e4]
  by_cases e5 : u = "week".toList
  · rw [if_pos e5]; exact ⟨604800, rfl, by decide⟩
  exfalso
  have b1 : (u == "second".toList) = false := by rw [beq_eq_false_iff_ne]; exact e1
  have b2 : (u == "minute".toList) = false := by rw [beq_eq_false_iff_ne]; exact e2
  have b3 : (u == "hour".toList) = false := by rw [beq_eq_false_iff_ne]; exact e3
  have b4 : (u == "day".toList) = false := by rw [beq_eq_false_iff_ne]; exact e4
  have b5 : (u == "week".toList) = false := by rw [beq_eq_false_iff_ne]; exact e5
  have hfalse : validUnits.contains u = false := by
    simp only [validUnits, List.contains, List.elem]
    rw [b1, b2, b3, b4, b5]
  rw [hfalse] at h
  exact Bool.false_ne_true h

/-- C3 (amended): `validate_offset_string` is strictly stricter than
`parse_offset`: on every string the validator accepts, the token list
has exactly two entries and `parse_offset` returns the (non-zero)
integer value times the recognized unit multiplier.  (The converse
fails: `parse_offset` ignores tokens past the second and accepts zero
values, as the counterexample shows.) -/
theorem parse_offset_of_validate_ok (s : String)
    (h : (validate_offset_string s).1 = true) :
    ∃ v m, parseIntPy ((pySplit (pyStrip s.toList)).getD 0 []) = some v ∧
      v ≠ 0 ∧
      unitMult (normalizeUnit ((pySplit (pyStrip s.toList)).getD 1 [])) = some m ∧
      (pySplit (pyStrip s.toList)).length = 2 ∧
      parse_offset s = v * m := by
  unfold validate_offset_string at h
  split at h
  · simp at h
  rename_i h0
  split at h
  · simp at h
  rename_i h1
  split at h
  · simp at h
  rename_i h2
  split at h
  · simp at h
  rename_i h3
  split at h
  · simp at h
  rename_i v hv
  split at h
  · simp at h
  rename_i hz
  split at h
  · rename_i hc
    obtain ⟨m, hm, _⟩ := unitMult_of_valid _ hc
    refine ⟨v, m, hv, hz, hm, by omega, ?_⟩
    unfold parse_offset
    rw [if_neg h0, if_neg h2, hv, hm]
  · simp at h

/-- Witness for the amended C3 theorem on the valid string "2 hours". -/
theorem parse_offset_of_validate_ok_witness :
    ∃ v m, parseIntPy ((pySplit (pyStrip "2 hours".toList)).getD 0 []) = some v ∧
      v ≠ 0 ∧
      unitMult (normalizeUnit ((pySplit (pyStrip "2 hours".toList)).getD 1 [])) =
        some m ∧
      (pySplit (pyStrip "2 hours".toList)).length = 2 ∧
      parse_offset "2 hours" = v * m :=
  parse_offset_of_validate_ok "2 hours" (by decide)

/-- C6 (counterexample): for the wrapping rule winter = Dec 1 → Feb 30
(an invalid end day) in the leap year 2024, the code clamps the end to
Feb 28 and reports Feb 29 as out of season, while clamping to the last
valid day of February 2024 (the 29th, as the claim states) would report
it in season. -/
theorem is_in_season_feb_clamp_cex :
    is_in_season [⟨"winter", 12, 1, 2, 30⟩] ⟨2024, 2, 29⟩ "winter" = .ok false ∧
    (dateLe ⟨2024, 12, 1⟩ ⟨2024, 2, 29⟩ ||
      dateLe ⟨2024, 2, 29⟩ (seasonEndDateClaimed 2024 ⟨"winter", 12, 1, 2, 30⟩)) =
      true := by
  exact ⟨rfl, rfl⟩

/-- C6 (amended): for the first season rule found for the key, with a
constructible start date and an end month in range, `is_in_season`
computes wrap membership (`start ≤ date ∨ date ≤ end`) when
`start_month > end_month` and interval membership otherwise, where the
end date clamps an invalid (end_month, end_day) to Feb 28 when
`end_month = 2` (even in leap years) and to the last day of the month
otherwise. -/
theorem is_in_season_formula
    (seasons : List Season) (check_date : Date) (key : String) (s : Season)
    (hfind : findSeason seasons key = some s)
    (start_date : Date)
    (hstart : mkDate check_date.year s.start_month s.start_day = .ok start_date)
    (hem1 : 1 ≤ s.end_month) (hem2 : s.end_month ≤ 12) :
    is_in_season seasons check_date key = .ok
      (if s.end_month < s.start_month then
        dateLe start_date check_date ||
          dateLe check_date (seasonEndDate check_date.year s)
      else
        dateLe start_date check_date &&
          dateLe check_date (seasonEndDate check_date.year s)) := by
  induction seasons with
  | nil => simp [findSeason] at hfind
  | cons hd tl ih =>
    unfold findSeason at hfind
    unfold is_in_season
    by_cases hk : hd.key = key
    · rw [if_pos hk] at hfind ⊢
      have hs : hd = s := by injection hfind
      subst hs
      unfold seasonEndDate
      cases hend : mkDate check_date.year hd.end_month hd.end_day with
      | ok e =>
        simp only [hstart, hend, bind, Except.bind, pure, Except.pure]
        split <;> rfl
      | error msg =>
        by_cases h2 : hd.end_month = 2
        · simp [hstart, hend, h2, bind, Except.bind, pure, Except.pure]
          split <;> rfl
        · have hmr : monthrange check_date.year hd.end_month =
              .ok (daysInMonth check_date.year hd.end_month) := by
            unfold monthrange
            rw [if_pos ⟨hem1, hem2⟩]
          simp [hstart, hend, h2, hmr, bind, Except.bind, pure, Except.pure]
          split <;> rfl
    · rw [if_neg hk] at hfind ⊢
      exact ih hfind

/-! ### Helper lemmas for the calendar model -/

/-- Every month length lies between 28 and 31. -/
theorem daysInMonth_bounds (y m : Nat) :
    28 ≤ daysInMonth y m ∧ daysInMonth y m ≤ 31 := by
  unfold daysInMonth
  split
  · split <;> omega
  all_goals omega

/-- The first weekday of a month is a valid weekday index. -/
theorem firstWeekday_lt (y m : Nat) : firstWeekday y m < 7 :=
  Nat.mod_lt _ (by omega)

/-- For every possible first weekday and month length, the last-weekday
scan succeeds and returns a real day of the month (finite check over
all 7 × 4 × 7 combinations). -/
theorem lastOk_all : ∀ fw < 7, ∀ k < 4, ∀ wd < 7, lastOk fw (28 + k) wd = true := by
  decide

/-- A successful `mkDate` returns exactly the requested valid date. -/
theorem mkDate_ok (y m d : Nat) (dt : Date) (h : mkDate y m d = .ok dt) :
    dt = ⟨y, m, d⟩ ∧ isValidDate dt := by
  unfold mkDate at h
  split at h
  · split at h
    · split at h
      · rename_i hy hm hd
        have hdt : (⟨y, m, d⟩ : Date) = dt := by injection h
        subst hdt
        exact ⟨rfl, hy.1, hy.2, hm.1, hm.2, hd.1, hd.2⟩
      · exact Except.noConfusion h
    · exact Except.noConfusion h
  · exact Except.noConfusion h

/-- A `.map some` that produced `.ok (some d)` came from `.ok d`. -/
theorem map_some_ok (e : Except String Date) (d : Date)
    (h : e.map some = .ok (some d)) : e = .ok d := by
  cases e with
  | ok x =>
    have hx : some x = some d :=
      Except.ok.inj (show Except.ok (some x) = Except.ok (some d) from h)
    rw [Option.some.inj hx]
  | error msg =>
    exact Except.noConfusion (show Except.error msg = Except.ok (some d) from h)

/-- A date produced by `_get_nth_weekday` is valid and lies in the
requested year. -/
theorem nth_weekday_valid (y m occ wd : Nat) (d : Date)
    (h : _get_nth_weekday y m occ wd = .ok (some d)) :
    isValidDate d ∧ d.year = y := by
  unfold _get_nth_weekday at h
  split at h
  · exact Except.noConfusion h
  split at h
  · exact Except.noConfusion h
  · obtain ⟨hdt, hval⟩ := mkDate_ok y m _ d (map_some_ok _ _ h)
    exact ⟨hval, by rw [hdt]⟩
  · exact Option.noConfusion (Except.ok.inj h)

/-- A date produced by `_get_last_weekday` is valid and lies in the
requested year. -/
theorem last_weekday_valid (y m wd : Nat) (d : Date)
    (h : _get_last_weekday y m wd = .ok (some d)) :
    isValidDate d ∧ d.year = y := by
  unfold _get_last_weekday at h
  split at h
  · exact Except.noConfusion h
  split at h
  · exact Except.noConfusion h
  · obtain ⟨hdt, hval⟩ := mkDate_ok y m _ d (map_some_ok _ _ h)
    exact ⟨hval, by rw [hdt]⟩
  · exact Option.noConfusion (Except.ok.inj h)

/-- A date produced by `get_holiday_date` is valid and lies in the
requested year. -/
theorem get_holiday_date_valid (hs : List Holiday) (y : Nat) (key : String)
    (d : Date) (h : get_holiday_date hs y key = .ok (some d)) :
    isValidDate d ∧ d.year = y := by
  induction hs with
  | nil => simp [get_holiday_date] at h
  | cons hd tl ih =>
    unfold get_holiday_date at h
    by_cases hk : hd.key = key
    · rw [if_pos hk] at h
      by_cases ht1 : hd.htype = "fixed"
      · rw [if_pos ht1] at h
        obtain ⟨hdt, hval⟩ := mkDate_ok y hd.month hd.day d (map_some_ok _ _ h)
        exact ⟨hval, by rw [hdt]⟩
      · rw [if_neg ht1] at h
        by_cases ht2 : hd.htype = "nth_weekday"
        · rw [if_pos ht2] at h
          exact nth_weekday_valid y hd.month hd.occurrence hd.weekday d h
        · rw [if_neg ht2] at h
          by_cases ht3 : hd.htype = "last_weekday"
          · rw [if_pos ht3] at h
            exact last_weekday_valid y hd.month hd.weekday d h
          · rw [if_neg ht3] at h
            exact ih h
    · rw [if_neg hk] at h
      exact ih h

/-- The day-of-year of a valid (month, day) pair is at most 365 (366 in
leap years). -/
theorem dayOfYear_le (y m d : Nat) (hm1 : 1 ≤ m) (hm2 : m ≤ 12)
    (hd : d ≤ daysInMonth y m) :
    daysBeforeMonth y m + d ≤ 365 + (if isLeap y then 1 else 0) := by
  cases hL : isLeap y <;> interval_cases m <;>
    simp [daysBeforeMonth, daysInMonth, hL] at hd ⊢ <;> omega

/-- Ordinal upper bound: a valid date stays within its year. -/
theorem toOrdinal_le (y m d : Nat) (hm1 : 1 ≤ m) (hm2 : m ≤ 12)
    (hd : d ≤ daysInMonth y m) :
    toOrdinal y m d ≤ 365 * (y - 1) + leapsBefore y + 365 +
      (if isLeap y then 1 else 0) := by
  have := dayOfYear_le y m d hm1 hm2 hd
  unfold toOrdinal
  omega

/-- Ordinal lower bound: a date with a positive day number is at least
its year's first ordinal. -/
theorem toOrdinal_ge (y m d : Nat) (hd : 1 ≤ d) :
    365 * (y - 1) + leapsBefore y + 1 ≤ toOrdinal y m d := by
  unfold toOrdinal
  omega

/-- `leapsBefore` grows by the leap bit of the passing year. -/
theorem leapsBefore_succ (y : Nat) (hy : 1 ≤ y) :
    leapsBefore y + (if isLeap y then 1 else 0) ≤ leapsBefore (y + 1) := by
  by_cases hL : isLeap y = true
  · rw [if_pos hL]
    unfold isLeap at hL
    rw [Bool.and_eq_true, decide_eq_true_eq, Bool.or_eq_true, decide_eq_true_eq,
      decide_eq_true_eq] at hL
    obtain ⟨h4, h100⟩ := hL
    unfold leapsBefore
    rcases h100 with h | h <;> omega
  · rw [if_neg hL]
    unfold leapsBefore
    omega

/-- A valid date in year `y + 1` is never earlier than a valid date in
year `y`. -/
theorem dateDiff_next_year_nonneg (today d2 : Date) (hvt : isValidDate today)
    (hv2 : isValidDate d2) (hy : d2.year = today.year + 1) :
    0 ≤ dateDiff d2 today := by
  obtain ⟨ty1, ty2, tm1, tm2, td1, td2⟩ := hvt
  obtain ⟨y1, y2, m1, m2, dd1, dd2⟩ := hv2
  have hle := toOrdinal_le today.year today.month today.day tm1 tm2 td2
  have hge := toOrdinal_ge (today.year + 1) d2.month d2.day dd1
  have hls := leapsBefore_succ today.year ty1
  have hord : toOrdinal today.year today.month today.day ≤
      toOrdinal (today.year + 1) d2.month d2.day := by
    cases hL : isLeap today.year <;> rw [hL] at hle hls <;> simp at hle hls <;> omega
  unfold dateDiff
  rw [hy]
  omega

/-- C10: for every representable year, month 1..12 and weekday 0..6,
`_get_last_weekday` returns a date — the `None` fallback after the
reversed-week scan is unreachable, since every weekday occurs in every
month. -/
theorem last_weekday_always_finds (year month weekday : Nat)
    (hy1 : 1 ≤ year) (hy2 : year ≤ 9999) (hm1 : 1 ≤ month) (hm2 : month ≤ 12)
    (hw : weekday < 7) :
    ∃ d, _get_last_weekday year month weekday = .ok (some d) := by
  have hcal : monthcalendar year month =
      .ok (monthcalendarAux (firstWeekday year month) (daysInMonth year month)) := by
    unfold monthcalendar
    rw [if_pos ⟨hm1, hm2⟩, if_pos ⟨hy1, hy2⟩]
  have hb := daysInMonth_bounds year month
  obtain ⟨k, hk4, hlen⟩ : ∃ k, k < 4 ∧ daysInMonth year month = 28 + k :=
    ⟨daysInMonth year month - 28, by omega, by omega⟩
  have hok := lastOk_all (firstWeekday year month) (firstWeekday_lt year month)
    k hk4 weekday hw
  rw [← hlen] at hok
  unfold lastOk at hok
  cases hfind : lastWeekdayFind
      (monthcalendarAux (firstWeekday year month) (daysInMonth year month)).reverse
      weekday with
  | error e => rw [hfind] at hok; exact absurd hok Bool.false_ne_true
  | ok r =>
    rw [hfind] at hok
    cases r with
    | none => exact absurd hok Bool.false_ne_true
    | some d =>
      have hd : 1 ≤ d ∧ d ≤ daysInMonth year month := of_decide_eq_true hok
      have hmk : mkDate year month d = .ok ⟨year, month, d⟩ := by
        unfold mkDate
        rw [if_pos ⟨hy1, hy2⟩, if_pos ⟨hm1, hm2⟩, if_pos hd]
      refine ⟨⟨year, month, d⟩, ?_⟩
      unfold _get_last_weekday
      simp only [hcal, hfind, hmk, Except.map]

/-- Witness for C10: the last Monday of February 2024. -/
theorem last_weekday_always_finds_witness :
    ∃ d, _get_last_weekday 2024 2 0 = .ok (some d) :=
  last_weekday_always_finds 2024 2 0 (by decide) (by decide) (by decide)
    (by decide) (by decide)

/-- C2 (counterexample): for the rule "5th Monday of January" and
reference date 2024-06-01, this year's occurrence (2024-01-29) has
passed and January 2025 has no 5th Monday, so `get_days_to_holiday`
returns the stale negative delta -124 — a negative value other than
the -1 sentinel. -/
theorem get_days_to_holiday_negative_cex :
    get_days_to_holiday [⟨"h", "nth_weekday", 1, 0, 5, 0⟩] ⟨2024, 6, 1⟩ "h" =
      .ok (-124) := by
  rfl

/-- C2 (amended): `get_days_to_holiday` returns -1 when this year's
resolution finds no date; when it finds one, it returns 0 on the
holiday itself and the non-negative delta while the date is ahead;
once the date has passed it returns the (provably non-negative) delta
to next year's occurrence whenever next year resolves — only when next
year fails to resolve does the stale negative delta escape. -/
theorem get_days_to_holiday_spec (holidays : List Holiday) (today : Date)
    (key : String) (hvt : isValidDate today) :
    (get_holiday_date holidays today.year key = .ok none →
      get_days_to_holiday holidays today key = .ok (-1)) ∧
    (∀ d, get_holiday_date holidays today.year key = .ok (some d) →
      (today = d → get_days_to_holiday holidays today key = .ok 0) ∧
      (0 ≤ dateDiff d today →
        get_days_to_holiday holidays today key = .ok (dateDiff d today)) ∧
      (dateDiff d today < 0 →
        ∀ d2, get_holiday_date holidays (today.year + 1) key = .ok (some d2) →
          get_days_to_holiday holidays today key = .ok (dateDiff d2 today) ∧
            0 ≤ dateDiff d2 today)) := by
  constructor
  · intro hnone
    unfold get_days_to_holiday
    simp only [hnone]
  · intro d hres
    refine ⟨?_, ?_, ?_⟩
    · intro heq
      subst heq
      have h0 : dateDiff today today = 0 := by unfold dateDiff; omega
      unfold get_days_to_holiday
      simp only [hres, h0]
      rw [if_neg (lt_irrefl (0 : Int))]
    · intro hpos
      unfold get_days_to_holiday
      simp only [hres]
      rw [if_neg (not_lt.mpr hpos)]
    · intro hneg d2 hres2
      constructor
      · unfold get_days_to_holiday
        simp only [hres]
        rw [if_pos hneg]
        simp only [hres2]
      · have hv2 := get_holiday_date_valid holidays (today.year + 1) key d2 hres2
        exact dateDiff_next_year_nonneg today d2 hvt hv2.1 hv2.2

/-- Witness for the amended C2 theorem: Christmas on Christmas day. -/
theorem get_days_to_holiday_spec_witness :
    get_days_to_holiday [⟨"xmas", "fixed", 12, 25, 0, 0⟩] ⟨2026, 12, 25⟩ "xmas" =
      .ok 0 :=
  ((get_days_to_holiday_spec [⟨"xmas", "fixed", 12, 25, 0, 0⟩] ⟨2026, 12, 25⟩
    "xmas" (by decide)).2 ⟨2026, 12, 25⟩ rfl).1 rfl

/-- Witness for the amended C6 theorem: the wrapping northern winter
rule Dec 1 → Feb 29 evaluated on 2026-02-15 (a non-leap year). -/
theorem is_in_season_formula_witness :
    is_in_season [⟨"winter", 12, 1, 2, 29⟩] ⟨2026, 2, 15⟩ "winter" = .ok
      (if (⟨"winter", 12, 1, 2, 29⟩ : Season).end_month <
          (⟨"winter", 12, 1, 2, 29⟩ : Season).start_month then
        dateLe ⟨2026, 12, 1⟩ ⟨2026, 2, 15⟩ ||
          dateLe ⟨2026, 2, 15⟩ (seasonEndDate 2026 ⟨"winter", 12, 1, 2, 29⟩)
      else
        dateLe ⟨2026, 12, 1⟩ ⟨2026, 2, 15⟩ &&
          dateLe ⟨2026, 2, 15⟩ (seasonEndDate 2026 ⟨"winter", 12, 1, 2, 29⟩)) :=
  is_in_season_formula [⟨"winter", 12, 1, 2, 29⟩] ⟨2026, 2, 15⟩ "winter"
    ⟨"winter", 12, 1, 2, 29⟩ rfl ⟨2026, 12, 1⟩ rfl (by decide) (by decide)

end Clockwork
